import Mathlib

/-!
# MediaWikiPart: a shallow embedding of `src/mediawikipart.cpp`

The part is a thin adapter between a host framework (KParts) and a view widget.
Its own state is a handful of members; everything it calls in Qt/KParts is a
library primitive.  The embedding keeps the members as fields of `Part`, turns
every member function into a pure function on `Part`, and takes the library
primitives whose result the part cannot influence (file system, MIME database,
`QUrl` algorithms, the base class' `closeUrl`) as explicit parameters.
-/

namespace MediaWikiPart

/-! ## Data model -/

/-- `QPoint`: a pair of C `int` coordinates (only copied around, never computed with). -/
structure QPoint where
  x : Int
  y : Int
deriving DecidableEq, Repr

/-- `QByteArray`: a sequence of bytes. -/
abbrev QByteArray := List (Fin 256)

/-- `QUrl` as the components the Qt class stores.  `none` is an absent component
(a null `QString`), the scheme is the empty string when absent (what `scheme()` returns).
Equality of records is `QUrl::operator==`. -/
structure QUrl where
  scheme : String
  userName : Option String
  password : Option String
  host : Option String
  port : Option Nat
  path : String
  query : Option String
  fragment : Option String
deriving DecidableEq, Repr

/-- `QUrl()`: the default constructed, empty URL. -/
def QUrl.null : QUrl :=
  ⟨"", none, none, none, none, "", none, none⟩

/-- `QUrl::setUserName(name)`; `none` is `QString()`. -/
def QUrl.setUserName (u : QUrl) (name : Option String) : QUrl :=
  { u with userName := name }

/-- `QUrl::setPassword(password)`; `none` is `QString()`. -/
def QUrl.setPassword (u : QUrl) (pw : Option String) : QUrl :=
  { u with password := pw }

/-- The URL with its whole user-info (user name and password) removed. -/
def QUrl.withoutUserInfo (u : QUrl) : QUrl :=
  (u.setUserName none).setPassword none

/-- Two URLs differ only in their user-info: every other component is the same. -/
def differOnlyInUserInfo (a b : QUrl) : Prop :=
  a.withoutUserInfo = b.withoutUserInfo

instance (a b : QUrl) : Decidable (differOnlyInUserInfo a b) :=
  inferInstanceAs (Decidable (a.withoutUserInfo = b.withoutUserInfo))

/-- The `QUrl` algorithms the part calls.  They live in Qt, not in this repository,
so they are parameters of the embedding:
`isValid`, `isRelative`, `base.resolved(relative)`,
`adjusted(QUrl::NormalizePathSegments)`, `adjusted(QUrl::RemoveFilename)`,
`QUrl::fromLocalFile` and `toDisplayString`. -/
structure QUrlOps where
  isValid : QUrl → Bool
  isRelative : QUrl → Bool
  resolved : QUrl → QUrl → QUrl
  normalizePathSegments : QUrl → QUrl
  removeFilename : QUrl → QUrl
  fromLocalFile : String → QUrl
  toDisplayString : QUrl → String

/-- `QMimeType`, identified by its name (the invalid type has the empty name). -/
structure QMimeType where
  name : String
deriving DecidableEq, Repr

/-- `KParts::OpenUrlArguments`. -/
structure OpenUrlArguments where
  reload : Bool
  xOffset : Int
  yOffset : Int
  mimeType : String
  actionRequestedByUser : Bool
deriving DecidableEq, Repr

/-- The state the base class `KParts::ReadOnlyPart` keeps for the part and that the
part reads through `url()`, `arguments()` and `localFilePath()`. -/
structure ReadOnlyPart where
  url : QUrl
  arguments : OpenUrlArguments
  localFilePath : String
deriving DecidableEq, Repr

/-- What the part cannot decide itself during one call:
* `fileOpen path` is `QFile(path).open(ReadOnly | Text)`: `none` when the file cannot be
  opened, otherwise the bytes the opened device delivers;
* `bufferOpen data` is `QBuffer(&data).open(ReadOnly | Text)`;
* `readAll bytes` is `QTextStream(device).readAll()` on a device delivering `bytes`;
* `mimeTypeForName` and `inherits` are `QMimeDatabase().mimeTypeForName` and
  `QMimeType::inherits`;
* `readOnlyPartCloseUrl` is the base class call `ReadOnlyPart::closeUrl()`, which
  sees only the base class state. -/
structure Env where
  fileOpen : String → Option QByteArray
  bufferOpen : QByteArray → Bool
  readAll : QByteArray → String
  mimeTypeForName : String → QMimeType
  inherits : QMimeType → String → Bool
  readOnlyPartCloseUrl : ReadOnlyPart → ReadOnlyPart × Bool

/-- The part.  `sourceText` and `baseUrl` are the content and base URL of
`m_sourceDocument`.

Modelled from the spec: the view widget and the search toolbar (`mediawikiview.hpp`,
`searchtoolbar.hpp` are not among the sources) are the collaborators of spec section 6,
"a view widget exposing scroll-position get/set, selection state" and a search toolbar
that can be hidden; they are kept as the plain fields `scrollPosition`, `hasSelection`
and `searchToolBarHidden`.  The five `...Enabled` fields are the enabled flags of the
five `QAction` members. -/
structure Part where
  base : ReadOnlyPart
  sourceText : String
  baseUrl : QUrl
  scrollPosition : QPoint
  hasSelection : Bool
  searchToolBarHidden : Bool
  copySelectionEnabled : Bool
  selectAllEnabled : Bool
  searchEnabled : Bool
  searchNextEnabled : Bool
  searchPreviousEnabled : Bool
  streamedData : QByteArray
  previousScrollPosition : QPoint
  previousUrl : QUrl
deriving DecidableEq, Repr

/-- The operating mode handed to the constructor.  The source names only
`BrowserViewModus`; every other mode takes the `else` branch of the constructor. -/
inductive Modus where
  | BrowserViewModus
  | ReadOnlyModus
deriving DecidableEq, Repr

/-! ## Construction -/

/-- `MediaWikiPart::setupActions`: the copy action follows the view's selection, the
select-all action is a fresh (enabled) action, the three search actions start disabled. -/
def setupActions (s : Part) : Part :=
  { s with
    copySelectionEnabled := s.hasSelection
    selectAllEnabled := true
    searchEnabled := false
    searchNextEnabled := false
    searchPreviousEnabled := false }

/-- The default constructed `KParts::OpenUrlArguments`. -/
def OpenUrlArguments.default : OpenUrlArguments :=
  ⟨false, 0, 0, "", false⟩

/-- The constructor `MediaWikiPart::MediaWikiPart`: default constructed members, an
empty document, a view without selection scrolled to the origin, the search toolbar
hidden, then `setupActions`. -/
def fresh : Part :=
  setupActions
    { base := ⟨QUrl.null, OpenUrlArguments.default, ""⟩
      sourceText := ""
      baseUrl := QUrl.null
      scrollPosition := ⟨0, 0⟩
      hasSelection := false
      searchToolBarHidden := true
      copySelectionEnabled := false
      selectAllEnabled := true
      searchEnabled := false
      searchNextEnabled := false
      searchPreviousEnabled := false
      streamedData := []
      previousScrollPosition := ⟨0, 0⟩
      previousUrl := QUrl.null }

/-! ## Opening and closing -/

/-- `MediaWikiPart::prepareViewStateRestoringOnReload`. -/
def prepareViewStateRestoringOnReload (s : Part) : Part :=
  if s.base.url = s.previousUrl then
    { s with base := { s.base with arguments :=
        { s.base.arguments with
          xOffset := s.previousScrollPosition.x
          yOffset := s.previousScrollPosition.y } } }
  else
    s

/-- `MediaWikiPart::restoreScrollPosition`. -/
def restoreScrollPosition (s : Part) : Part :=
  { s with scrollPosition := ⟨s.base.arguments.xOffset, s.base.arguments.yOffset⟩ }

/-- The three `setEnabled(b)` calls on the search actions. -/
def setSearchActionsEnabled (b : Bool) (s : Part) : Part :=
  { s with searchEnabled := b, searchNextEnabled := b, searchPreviousEnabled := b }

/-- `MediaWikiPart::openFile`. -/
def openFile (q : QUrlOps) (e : Env) (s : Part) : Part × Bool :=
  match e.fileOpen s.base.localFilePath with
  | none => (s, false)
  | some bytes =>
    let s1 := prepareViewStateRestoringOnReload s
    let text := e.readAll bytes
    let s2 := { s1 with sourceText := text }
    let b := q.removeFilename (q.fromLocalFile s2.base.localFilePath)
    let s3 := { s2 with baseUrl := b }
    let s4 := restoreScrollPosition s3
    (setSearchActionsEnabled true s4, true)

/-- `MediaWikiPart::doOpenStream`. -/
def doOpenStream (e : Env) (mimeType : String) (s : Part) : Part × Bool :=
  let mime := e.mimeTypeForName mimeType
  if !e.inherits mime "text/mediawiki" then
    (s, false)
  else
    ({ s with streamedData := [], sourceText := "" }, true)

/-- `MediaWikiPart::doWriteStream`. -/
def doWriteStream (data : QByteArray) (s : Part) : Part × Bool :=
  ({ s with streamedData := s.streamedData ++ data }, true)

/-- `MediaWikiPart::doCloseStream`. -/
def doCloseStream (e : Env) (s : Part) : Part × Bool :=
  if !e.bufferOpen s.streamedData then
    ({ s with streamedData := [] }, false)
  else
    let s1 := prepareViewStateRestoringOnReload s
    let text := e.readAll s1.streamedData
    let s2 := { s1 with sourceText := text, baseUrl := QUrl.null }
    let s3 := restoreScrollPosition s2
    let s4 := setSearchActionsEnabled true s3
    ({ s4 with streamedData := [] }, true)

/-- `MediaWikiPart::closeUrl`. -/
def closeUrl (q : QUrlOps) (e : Env) (s : Part) : Part × Bool :=
  let currentUrl := s.base.url
  let s1 :=
    if q.isValid currentUrl then
      { s with previousScrollPosition := s.scrollPosition, previousUrl := currentUrl }
    else
      s
  let s2 := { s1 with sourceText := "", baseUrl := QUrl.null }
  let s3 := setSearchActionsEnabled false s2
  let s4 := { s3 with streamedData := [] }
  let r := e.readOnlyPartCloseUrl s4.base
  ({ s4 with base := r.1 }, r.2)

/-! ## Signal handlers -/

/-- The actions a context menu can hold: the three members the handler adds, and the
three actions it creates on the spot ("Open Link", `createCopyEmailAddressAction`,
`createCopyLinkUrlAction`), each remembering the URL it acts on. -/
inductive MenuAction where
  | copySelection
  | selectAll
  | search
  | openLink (url : QUrl)
  | copyEmailAddress (mailtoUrl : QUrl)
  | copyLinkUrl (linkUrl : QUrl)
deriving DecidableEq, Repr

/-- One row of a `QMenu`. -/
inductive MenuEntry where
  | action (a : MenuAction)
  | separator
deriving DecidableEq, Repr

/-- `QMenu::isEmpty()`: no action other than separators (every action here is visible,
the part never hides one). -/
def menuIsEmpty (entries : List MenuEntry) : Bool :=
  entries.all fun entry => entry == MenuEntry.separator

/-- What a context menu request leaves behind: the rows of the menu that was built and
the position at which `menu.exec` showed it (`none` when it was not shown). -/
structure MenuResult where
  entries : List MenuEntry
  shownAt : Option QPoint
deriving DecidableEq, Repr

/-- `MediaWikiPart::handleContextMenuRequest`. -/
def handleContextMenuRequest (q : QUrlOps) (s : Part) (globalPos : QPoint)
    (linkUrl : QUrl) (hasSelection : Bool) : MenuResult :=
  let menu : List MenuEntry :=
    if !q.isValid linkUrl then
      if hasSelection then
        [MenuEntry.action MenuAction.copySelection]
      else
        let menu1 := [MenuEntry.action MenuAction.selectAll]
        if s.searchToolBarHidden then
          menu1 ++ [MenuEntry.action MenuAction.search]
        else
          menu1
    else
      let menu1 := [MenuEntry.action (MenuAction.openLink linkUrl)]
      let menu2 := menu1 ++ [MenuEntry.separator]
      if linkUrl.scheme = "mailto" then
        menu2 ++ [MenuEntry.action (MenuAction.copyEmailAddress linkUrl)]
      else
        menu2 ++ [MenuEntry.action (MenuAction.copyLinkUrl linkUrl)]
  if !menuIsEmpty menu then
    ⟨menu, some globalPos⟩
  else
    ⟨menu, none⟩

/-- Where the constructor connects the view's `contextMenuRequested` signal to: the
browser extension in `BrowserViewModus`, `handleContextMenuRequest` otherwise. -/
inductive ContextMenuOutcome where
  | requestedFromBrowserExtension
  | handledByPart (r : MenuResult)
deriving DecidableEq, Repr

/-- The view's `contextMenuRequested(globalPos, linkUrl, hasSelection)` signal, routed as the
constructor connected it. -/
def contextMenuRequested (q : QUrlOps) (modus : Modus) (s : Part) (globalPos : QPoint)
    (linkUrl : QUrl) (hasSelection : Bool) : ContextMenuOutcome :=
  if modus = Modus.BrowserViewModus then
    ContextMenuOutcome.requestedFromBrowserExtension
  else
    ContextMenuOutcome.handledByPart (handleContextMenuRequest q s globalPos linkUrl hasSelection)

/-- `MediaWikiPart::resolvedUrl`. -/
def resolvedUrl (q : QUrlOps) (s : Part) (url : QUrl) : QUrl :=
  let u := if q.isRelative url then q.resolved s.baseUrl url else url
  q.normalizePathSegments u

/-- The two signals `showHoveredLink` emits: `mouseOverInfo(fileItem)` on the browser
extension (`none` is the null `KFileItem`, `some u` the item made from URL `u`) and
`setStatusBarText(message)`. -/
structure HoverReport where
  fileItem : Option QUrl
  message : String
deriving DecidableEq, Repr

/-- `MediaWikiPart::showHoveredLink`. -/
def showHoveredLink (q : QUrlOps) (s : Part) (hovered : QUrl) : HoverReport :=
  let linkUrl := resolvedUrl q s hovered
  if q.isValid linkUrl then
    let linkUrl1 := linkUrl.setUserName none
    let message := q.toDisplayString linkUrl1
    if linkUrl1.scheme ≠ "mailto" then
      ⟨some linkUrl1, message⟩
    else
      ⟨none, message⟩
  else
    ⟨none, ""⟩

/-! ## Call sequences -/

/-- One thing that happens to the part: the five entry points the host framework calls,
and the two ways its surroundings change what it reads (the host framework sets the URL,
the open arguments and the local file path before an open; the user scrolls the view). -/
inductive Call where
  | openFile
  | doOpenStream (mimeType : String)
  | doWriteStream (data : QByteArray)
  | doCloseStream
  | closeUrl
  | hostSet (b : ReadOnlyPart)
  | scrolled (p : QPoint)
deriving DecidableEq, Repr

/-- The part after one call, and what the call returned (`true` for the two changes of
the surroundings, which return nothing). -/
def step (q : QUrlOps) (e : Env) (c : Call) (s : Part) : Part × Bool :=
  match c with
  | Call.openFile => openFile q e s
  | Call.doOpenStream mimeType => doOpenStream e mimeType s
  | Call.doWriteStream data => doWriteStream data s
  | Call.doCloseStream => doCloseStream e s
  | Call.closeUrl => closeUrl q e s
  | Call.hostSet b => ({ s with base := b }, true)
  | Call.scrolled p => ({ s with scrollPosition := p }, true)

/-- The part after a sequence of calls, each made in its own environment (the file
system may change between two calls). -/
def run (q : QUrlOps) : List (Env × Call) → Part → Part
  | [], s => s
  | (e, c) :: rest, s => run q rest (step q e c s).1

/-- Writing chunks one after the other with `doWriteStream`. -/
def writeChunks : List QByteArray → Part → Part
  | [], s => s
  | d :: rest, s => writeChunks rest (doWriteStream d s).1

/-- Follows the specification's wording of "a document is loaded": the document text was
set by a successful `openFile` or `doCloseStream` and has not been cleared since by
`closeUrl` or by an accepted `doOpenStream`.  `loaded` is the answer before the calls. -/
def documentLoaded (q : QUrlOps) : Part → Bool → List (Env × Call) → Bool
  | _, loaded, [] => loaded
  | s, loaded, (e, c) :: rest =>
    let r := step q e c s
    let loaded1 :=
      match c with
      | Call.openFile => if r.2 then true else loaded
      | Call.doCloseStream => if r.2 then true else loaded
      | Call.closeUrl => false
      | Call.doOpenStream _ => if r.2 then false else loaded
      | _ => loaded
    documentLoaded q r.1 loaded1 rest

/-- Follows the code instead: the last successful `openFile` or `doCloseStream` came
after the last `closeUrl`.  `opened` is the answer before the calls. -/
def openedSinceClose (q : QUrlOps) : Part → Bool → List (Env × Call) → Bool
  | _, opened, [] => opened
  | s, opened, (e, c) :: rest =>
    let r := step q e c s
    let opened1 :=
      match c with
      | Call.openFile => if r.2 then true else opened
      | Call.doCloseStream => if r.2 then true else opened
      | Call.closeUrl => false
      | _ => opened
    openedSinceClose q r.1 opened1 rest

/-- The order in which the host issues the stream hook: every `doOpenStream` of the
sequence is called with no successful `openFile` or `doCloseStream` since the last
`closeUrl` (the host's `openStream` closes the part before it calls the hook).
`opened` says whether such an open has happened before the calls. -/
def streamOpensOnlyWhenClosed (q : QUrlOps) : Part → Bool → List (Env × Call) → Bool
  | _, _, [] => true
  | s, opened, (e, c) :: rest =>
    let r := step q e c s
    let opened1 :=
      match c with
      | Call.openFile => if r.2 then true else opened
      | Call.doCloseStream => if r.2 then true else opened
      | Call.closeUrl => false
      | _ => opened
    (match c with
      | Call.doOpenStream _ => !opened
      | _ => true) &&
      streamOpensOnlyWhenClosed q r.1 opened1 rest

/-- No `closeUrl` of the sequence is made while the part's URL is valid; a repeated close of
an already closed part, whose URL is not valid, is allowed. -/
def noCloseOfValidUrl (q : QUrlOps) : Part → List (Env × Call) → Bool
  | _, [] => true
  | s, (e, c) :: rest =>
    (if c = Call.closeUrl then !q.isValid s.base.url else true) &&
      noCloseOfValidUrl q (step q e c s).1 rest

/-! ## Library assumptions and a concrete instance -/

/-- What the hover message relies on in Qt.  The first four say that the `QUrl`
algorithms the part runs before it prints the link neither look at the user-info nor
move it into another component; the last is the documented behaviour of
`QUrl::toDisplayString` ("the option RemovePassword is always enabled"). -/
structure UserInfoOblivious (q : QUrlOps) : Prop where
  isRelative_congr : ∀ a b, differOnlyInUserInfo a b → q.isRelative a = q.isRelative b
  resolved_congr : ∀ base a b, differOnlyInUserInfo a b →
    differOnlyInUserInfo (q.resolved base a) (q.resolved base b)
  normalize_congr : ∀ a b, differOnlyInUserInfo a b →
    differOnlyInUserInfo (q.normalizePathSegments a) (q.normalizePathSegments b)
  isValid_congr : ∀ a b, differOnlyInUserInfo a b → q.isValid a = q.isValid b
  display_removes_password : ∀ u, q.toDisplayString u = q.toDisplayString (u.setPassword none)

/-- The characters of a path up to and including its last slash. -/
def dropFileName (path : List Char) : List Char :=
  (path.reverse.dropWhile fun c => c ≠ '/').reverse

/-- A small executable instance of the `QUrl` algorithms, for evaluating the part on concrete
inputs: a URL is valid when it has a scheme, a host or a path; it is relative when it
has no scheme; a relative URL with a host keeps its authority and path, one without
takes the authority of the base and has its path merged with the base path (an empty
path keeps the base path, an absolute path replaces it, any other path replaces the
file name of the base path); path segments are taken as they are; the display string is
`scheme:[//[user@]host]path`. -/
def sampleUrlOps : QUrlOps where
  isValid u := decide (u.scheme ≠ "") || u.host.isSome || decide (u.path ≠ "")
  isRelative u := decide (u.scheme = "")
  resolved base r :=
    if r.host.isSome then
      { r with scheme := base.scheme }
    else
      { base with
        path :=
          if r.path = "" then base.path
          else if r.path.data.head? = some '/' then r.path
          else String.mk (dropFileName base.path.data ++ r.path.data)
        query := r.query
        fragment := r.fragment }
  normalizePathSegments u := u
  removeFilename u := { u with path := String.mk (dropFileName u.path.data) }
  fromLocalFile p := ⟨"file", none, none, some "", none, p, none, none⟩
  toDisplayString u :=
    u.scheme ++ ":" ++
      (match u.host with
        | some h => "//" ++ (match u.userName with
            | some n => n ++ "@"
            | none => "") ++ h
        | none => "") ++ u.path

/-- A small executable environment: one readable file holding the bytes of "= A =", every
buffer can be opened, bytes are read as Latin-1 text, `text/mediawiki` and
`text/x-mediawiki` inherit `text/mediawiki`, and the base class' `closeUrl` resets the
open arguments, clears the URL and succeeds. -/
def sampleEnv : Env where
  fileOpen p := if p = "/wiki/page.mediawiki" then some [61, 32, 65, 32, 61] else none
  bufferOpen _ := true
  readAll bytes := String.mk (bytes.map fun b => Char.ofNat b.val)
  mimeTypeForName n := ⟨n⟩
  inherits m parent :=
    decide (parent = "text/mediawiki") &&
      (decide (m.name = "text/mediawiki") || decide (m.name = "text/x-mediawiki"))
  readOnlyPartCloseUrl b := ({ b with url := QUrl.null, arguments := OpenUrlArguments.default }, true)

/-- An environment in which no file and no buffer can be opened. -/
def failingEnv : Env :=
  { sampleEnv with fileOpen := fun _ => none, bufferOpen := fun _ => false }

/-- The relative link `//alice:secret@example.org/wiki/Main`. -/
def sampleLink : QUrl :=
  ⟨"", some "alice", some "secret", some "example.org", none, "/wiki/Main", none, none⟩

/-- The relative link `Other`. -/
def samplePageLink : QUrl :=
  ⟨"", none, none, none, none, "Other", none, none⟩

/-- The URL `file:///wiki/page.mediawiki`. -/
def sampleFileUrl : QUrl :=
  ⟨"file", none, none, some "", none, "/wiki/page.mediawiki", none, none⟩

/-- A part showing `file:///wiki/page.mediawiki`, scrolled to (3, 7). -/
def sampleOpenPart : Part :=
  { fresh with
    base := ⟨sampleFileUrl, OpenUrlArguments.default, "/wiki/page.mediawiki"⟩
    sourceText := "= A ="
    baseUrl := ⟨"file", none, none, some "", none, "/wiki/", none, none⟩
    scrollPosition := ⟨3, 7⟩
    searchEnabled := true
    searchNextEnabled := true
    searchPreviousEnabled := true }

/-- The same link as `sampleLink` with another user name and no password. -/
def sampleLinkOtherUser : QUrl :=
  ⟨"", some "mallory", none, some "example.org", none, "/wiki/Main", none, none⟩

/-- A document is streamed in and finalized, the part is closed, and a second document
is streamed in and finalized: the order in which the host issues the calls. -/
def streamCloseStream : List (Env × Call) :=
  [(sampleEnv, Call.doOpenStream "text/mediawiki"),
   (sampleEnv, Call.doWriteStream [61, 32, 65]),
   (sampleEnv, Call.doCloseStream),
   (sampleEnv, Call.closeUrl),
   (sampleEnv, Call.doOpenStream "text/mediawiki"),
   (sampleEnv, Call.doWriteStream [32, 61]),
   (sampleEnv, Call.doCloseStream)]

/-- A document is streamed in and finalized, then a second stream is opened. -/
def streamTwice : List (Env × Call) :=
  [(sampleEnv, Call.doOpenStream "text/mediawiki"),
   (sampleEnv, Call.doWriteStream [61, 32, 65]),
   (sampleEnv, Call.doWriteStream [32, 61]),
   (sampleEnv, Call.doCloseStream),
   (sampleEnv, Call.doOpenStream "text/mediawiki")]

/-- The closed part is closed once more, the view is scrolled, and the host asks for
`file:///wiki/page.mediawiki` again with offsets (100, 200) in the open arguments. -/
def hostReopens : List (Env × Call) :=
  [(sampleEnv, Call.closeUrl),
   (sampleEnv, Call.scrolled ⟨0, 40⟩),
   (sampleEnv, Call.hostSet
      ⟨sampleFileUrl, ⟨true, 100, 200, "text/mediawiki", false⟩, "/wiki/page.mediawiki"⟩)]

/-! ## Theorems -/

/-- `closeUrl` on a part whose URL is valid, written out. -/
theorem closeUrl_of_valid (q : QUrlOps) (e : Env) (s : Part)
    (h : q.isValid s.base.url = true) :
    closeUrl q e s =
      ({ s with
          base := (e.readOnlyPartCloseUrl s.base).1
          sourceText := ""
          baseUrl := QUrl.null
          searchEnabled := false
          searchNextEnabled := false
          searchPreviousEnabled := false
          streamedData := []
          previousScrollPosition := s.scrollPosition
          previousUrl := s.base.url },
        (e.readOnlyPartCloseUrl s.base).2) := by
  simp [closeUrl, setSearchActionsEnabled, h]

/-- `closeUrl` on a part whose URL is not valid, written out. -/
theorem closeUrl_of_invalid (q : QUrlOps) (e : Env) (s : Part)
    (h : q.isValid s.base.url = false) :
    closeUrl q e s =
      ({ s with
          base := (e.readOnlyPartCloseUrl s.base).1
          sourceText := ""
          baseUrl := QUrl.null
          searchEnabled := false
          searchNextEnabled := false
          searchPreviousEnabled := false
          streamedData := [] },
        (e.readOnlyPartCloseUrl s.base).2) := by
  simp [closeUrl, setSearchActionsEnabled, h]

/-- The base class state after `closeUrl` is what the base class call made of it. -/
theorem closeUrl_base (q : QUrlOps) (e : Env) (s : Part) :
    (closeUrl q e s).1.base = (e.readOnlyPartCloseUrl s.base).1 := by
  cases h : q.isValid s.base.url
  · rw [closeUrl_of_invalid q e s h]
  · rw [closeUrl_of_valid q e s h]

/-- C2: after `closeUrl`, whatever the part's state was, the source document's text is
empty, its base URL is the empty URL, the streamed byte buffer is empty, and the find,
find-next and find-previous actions are disabled. -/
theorem closeUrl_clears_document (q : QUrlOps) (e : Env) (s : Part) :
    (closeUrl q e s).1.sourceText = "" ∧
    (closeUrl q e s).1.baseUrl = QUrl.null ∧
    (closeUrl q e s).1.streamedData = [] ∧
    (closeUrl q e s).1.searchEnabled = false ∧
    (closeUrl q e s).1.searchNextEnabled = false ∧
    (closeUrl q e s).1.searchPreviousEnabled = false := by
  cases h : q.isValid s.base.url
  · rw [closeUrl_of_invalid q e s h]
    exact ⟨rfl, rfl, rfl, rfl, rfl, rfl⟩
  · rw [closeUrl_of_valid q e s h]
    exact ⟨rfl, rfl, rfl, rfl, rfl, rfl⟩

/-- C4: `openFile` returns false exactly when the local file cannot be opened, and then
the part is left as it was (document, base URL, open arguments, scroll position, stream
buffer, previous URL and scroll position, every action).  When the file can be opened
it returns true, the document text is the text read from the file, the base URL is the
file's URL with the file name removed, and the three search actions are enabled. -/
theorem openFile_result (q : QUrlOps) (e : Env) (s : Part) :
    ((openFile q e s).2 = false ↔ e.fileOpen s.base.localFilePath = none) ∧
    (e.fileOpen s.base.localFilePath = none → (openFile q e s).1 = s) ∧
    (∀ bytes, e.fileOpen s.base.localFilePath = some bytes →
      (openFile q e s).2 = true ∧
      (openFile q e s).1.sourceText = e.readAll bytes ∧
      (openFile q e s).1.baseUrl = q.removeFilename (q.fromLocalFile s.base.localFilePath) ∧
      (openFile q e s).1.searchEnabled = true ∧
      (openFile q e s).1.searchNextEnabled = true ∧
      (openFile q e s).1.searchPreviousEnabled = true) := by
  unfold openFile
  cases h : e.fileOpen s.base.localFilePath with
  | none => simp
  | some bytes =>
    have hpath : (prepareViewStateRestoringOnReload s).base.localFilePath
        = s.base.localFilePath := by
      unfold prepareViewStateRestoringOnReload
      split <;> rfl
    simp [setSearchActionsEnabled, restoreScrollPosition, hpath]

/-- C5: `doOpenStream mimeType` returns false exactly when the MIME type named by
`mimeType` does not inherit `text/mediawiki`; a rejected stream open leaves the part as
it was (stream buffer, document and actions included); an accepted one returns true
and leaves the stream buffer and the document text empty. -/
theorem doOpenStream_result (e : Env) (mimeType : String) (s : Part) :
    ((doOpenStream e mimeType s).2 = false ↔
      e.inherits (e.mimeTypeForName mimeType) "text/mediawiki" = false) ∧
    (e.inherits (e.mimeTypeForName mimeType) "text/mediawiki" = false →
      (doOpenStream e mimeType s).1 = s) ∧
    (e.inherits (e.mimeTypeForName mimeType) "text/mediawiki" = true →
      (doOpenStream e mimeType s).2 = true ∧
      (doOpenStream e mimeType s).1.streamedData = [] ∧
      (doOpenStream e mimeType s).1.sourceText = "") := by
  cases h : e.inherits (e.mimeTypeForName mimeType) "text/mediawiki" <;>
    simp [doOpenStream, h]

/-- C7: after `doCloseStream` has returned, true or false, the stream buffer is empty;
and when it returns false nothing but the buffer has changed: document text, base URL,
open arguments, scroll position and the enabled state of every action are as before. -/
theorem doCloseStream_clears_buffer (e : Env) (s : Part) :
    (doCloseStream e s).1.streamedData = [] ∧
    ((doCloseStream e s).2 = false →
      (doCloseStream e s).1 = { s with streamedData := [] } ∧
      (doCloseStream e s).1.sourceText = s.sourceText ∧
      (doCloseStream e s).1.baseUrl = s.baseUrl ∧
      (doCloseStream e s).1.base.arguments = s.base.arguments ∧
      (doCloseStream e s).1.scrollPosition = s.scrollPosition ∧
      (doCloseStream e s).1.copySelectionEnabled = s.copySelectionEnabled ∧
      (doCloseStream e s).1.selectAllEnabled = s.selectAllEnabled ∧
      (doCloseStream e s).1.searchEnabled = s.searchEnabled ∧
      (doCloseStream e s).1.searchNextEnabled = s.searchNextEnabled ∧
      (doCloseStream e s).1.searchPreviousEnabled = s.searchPreviousEnabled) := by
  cases h : e.bufferOpen s.streamedData <;>
    simp [doCloseStream, h]

/-- C10: `closeUrl` overwrites the remembered navigation state exactly when the part's
URL is valid: then the previous URL is that URL and the previous scroll position is the
view's scroll position at the call; with a URL that is not valid both are left as they
were.  Hence a second `closeUrl` right after a first one that left the URL not valid
changes none of the part's own members, and leaves the whole part as the first call
left it when the base class call has nothing left to change. -/
theorem closeUrl_remembers_navigation (q : QUrlOps) (e e2 : Env) (s : Part) :
    (q.isValid s.base.url = true →
      (closeUrl q e s).1.previousUrl = s.base.url ∧
      (closeUrl q e s).1.previousScrollPosition = s.scrollPosition) ∧
    (q.isValid s.base.url = false →
      (closeUrl q e s).1.previousUrl = s.previousUrl ∧
      (closeUrl q e s).1.previousScrollPosition = s.previousScrollPosition) ∧
    (q.isValid (closeUrl q e s).1.base.url = false →
      { (closeUrl q e2 (closeUrl q e s).1).1 with base := (closeUrl q e s).1.base }
        = (closeUrl q e s).1 ∧
      ((e2.readOnlyPartCloseUrl (closeUrl q e s).1.base).1 = (closeUrl q e s).1.base →
        (closeUrl q e2 (closeUrl q e s).1).1 = (closeUrl q e s).1)) := by
  refine ⟨?_, ?_, ?_⟩
  · intro h
    rw [closeUrl_of_valid q e s h]
    exact ⟨rfl, rfl⟩
  · intro h
    rw [closeUrl_of_invalid q e s h]
    exact ⟨rfl, rfl⟩
  · intro h
    have hown : { (closeUrl q e2 (closeUrl q e s).1).1 with base := (closeUrl q e s).1.base }
        = (closeUrl q e s).1 := by
      rw [closeUrl_of_invalid q e2 _ h]
      cases hv : q.isValid s.base.url
      · rw [closeUrl_of_invalid q e s hv]
      · rw [closeUrl_of_valid q e s hv]
    refine ⟨hown, ?_⟩
    intro hbase
    have hb : (closeUrl q e2 (closeUrl q e s).1).1.base = (closeUrl q e s).1.base := by
      rw [closeUrl_base q e2]
      exact hbase
    rw [← hb] at hown
    exact hown

/-- `prepareViewStateRestoringOnReload` changes the open arguments only. -/
theorem prepareViewStateRestoringOnReload_eq (s : Part) :
    prepareViewStateRestoringOnReload s =
      { s with base := { s.base with arguments :=
          if s.base.url = s.previousUrl then
            { s.base.arguments with
              xOffset := s.previousScrollPosition.x
              yOffset := s.previousScrollPosition.y }
          else
            s.base.arguments } } := by
  unfold prepareViewStateRestoringOnReload
  split <;> rfl

/-- `doCloseStream` when the buffer can be opened, written out. -/
theorem doCloseStream_of_opened (e : Env) (s : Part)
    (h : e.bufferOpen s.streamedData = true) :
    doCloseStream e s =
      ({ (restoreScrollPosition (prepareViewStateRestoringOnReload s)) with
          sourceText := e.readAll s.streamedData
          baseUrl := QUrl.null
          searchEnabled := true
          searchNextEnabled := true
          searchPreviousEnabled := true
          streamedData := [] }, true) := by
  simp [doCloseStream, h, prepareViewStateRestoringOnReload_eq, restoreScrollPosition,
    setSearchActionsEnabled]

/-- `doCloseStream` when the buffer cannot be opened, written out. -/
theorem doCloseStream_of_failed (e : Env) (s : Part)
    (h : e.bufferOpen s.streamedData = false) :
    doCloseStream e s = ({ s with streamedData := [] }, false) := by
  simp [doCloseStream, h]

/-- `openFile` when the file can be opened, written out. -/
theorem openFile_of_opened (q : QUrlOps) (e : Env) (s : Part) (bytes : QByteArray)
    (h : e.fileOpen s.base.localFilePath = some bytes) :
    openFile q e s =
      ({ (restoreScrollPosition (prepareViewStateRestoringOnReload s)) with
          sourceText := e.readAll bytes
          baseUrl := q.removeFilename (q.fromLocalFile s.base.localFilePath)
          searchEnabled := true
          searchNextEnabled := true
          searchPreviousEnabled := true }, true) := by
  simp [openFile, h, prepareViewStateRestoringOnReload_eq, restoreScrollPosition,
    setSearchActionsEnabled]

/-- `openFile` when the file cannot be opened, written out. -/
theorem openFile_of_failed (q : QUrlOps) (e : Env) (s : Part)
    (h : e.fileOpen s.base.localFilePath = none) :
    openFile q e s = (s, false) := by
  simp [openFile, h]

/-- Writing chunks appends their concatenation to the buffer and changes nothing else. -/
theorem writeChunks_eq (chunks : List QByteArray) (t : Part) :
    writeChunks chunks t = { t with streamedData := t.streamedData ++ chunks.flatten } := by
  induction chunks generalizing t with
  | nil => simp [writeChunks]
  | cons d rest ih => simp [writeChunks, ih, doWriteStream, List.append_assoc]

/-- C6: staged stream loading delivers the chunks in order.  Every `doWriteStream`
returns true and changes only the buffer, by appending its chunk; after an accepted
`doOpenStream` followed by `doWriteStream d1`, ..., `doWriteStream dn` the buffer is
`d1 ++ ... ++ dn`; and a successful `doCloseStream` then sets the document text to the
text read from exactly those bytes and the base URL to the empty URL. -/
theorem stream_delivers_chunks_in_order (e e2 : Env) (mimeType : String) (s : Part)
    (chunks : List QByteArray) (haccept : (doOpenStream e mimeType s).2 = true) :
    (∀ d t, (doWriteStream d t).2 = true ∧
      (doWriteStream d t).1 = { t with streamedData := t.streamedData ++ d }) ∧
    (writeChunks chunks (doOpenStream e mimeType s).1).streamedData = chunks.flatten ∧
    ((doCloseStream e2 (writeChunks chunks (doOpenStream e mimeType s).1)).2 = true →
      (doCloseStream e2 (writeChunks chunks (doOpenStream e mimeType s).1)).1.sourceText
        = e2.readAll chunks.flatten ∧
      (doCloseStream e2 (writeChunks chunks (doOpenStream e mimeType s).1)).1.baseUrl
        = QUrl.null) := by
  have hbuf : (writeChunks chunks (doOpenStream e mimeType s).1).streamedData
      = chunks.flatten := by
    rw [writeChunks_eq]
    cases h : e.inherits (e.mimeTypeForName mimeType) "text/mediawiki"
    · simp [doOpenStream, h] at haccept
    · simp [doOpenStream, h]
  refine ⟨fun d t => ⟨rfl, rfl⟩, hbuf, ?_⟩
  intro hok
  generalize writeChunks chunks (doOpenStream e mimeType s).1 = t at hbuf hok ⊢
  cases h : e2.bufferOpen t.streamedData
  · rw [doCloseStream_of_failed e2 t h] at hok
    cases hok
  · rw [doCloseStream_of_opened e2 t h, hbuf]
    exact ⟨rfl, rfl⟩

/-- C8: in standalone mode (any mode but `BrowserViewModus`) a context-menu request is
handled by the part, and the menu it builds is: for a valid link URL exactly
"Open Link", a separator, and the copy-email-address action when the scheme is `mailto`,
the copy-link-URL action otherwise; for a link URL that is not valid and a selection,
exactly the copy-selection action; for a link URL that is not valid and no selection, the
select-all action, followed by the find action only when the search toolbar is hidden.
The menu is therefore never empty and is always shown, at the requested position. -/
theorem contextMenu_in_standalone_mode (q : QUrlOps) (modus : Modus) (s : Part)
    (globalPos : QPoint) (linkUrl : QUrl) (hasSelection : Bool)
    (hmodus : modus ≠ Modus.BrowserViewModus) :
    contextMenuRequested q modus s globalPos linkUrl hasSelection =
      ContextMenuOutcome.handledByPart
        (handleContextMenuRequest q s globalPos linkUrl hasSelection) ∧
    (handleContextMenuRequest q s globalPos linkUrl hasSelection).entries =
      (if q.isValid linkUrl = true then
        [MenuEntry.action (MenuAction.openLink linkUrl), MenuEntry.separator,
          if linkUrl.scheme = "mailto" then
            MenuEntry.action (MenuAction.copyEmailAddress linkUrl)
          else
            MenuEntry.action (MenuAction.copyLinkUrl linkUrl)]
      else if hasSelection = true then
        [MenuEntry.action MenuAction.copySelection]
      else if s.searchToolBarHidden = true then
        [MenuEntry.action MenuAction.selectAll, MenuEntry.action MenuAction.search]
      else
        [MenuEntry.action MenuAction.selectAll]) ∧
    (handleContextMenuRequest q s globalPos linkUrl hasSelection).entries ≠ [] ∧
    menuIsEmpty (handleContextMenuRequest q s globalPos linkUrl hasSelection).entries = false ∧
    (handleContextMenuRequest q s globalPos linkUrl hasSelection).shownAt = some globalPos := by
  refine ⟨by simp [contextMenuRequested, hmodus], ?_⟩
  cases hv : q.isValid linkUrl
  · cases hasSelection
    · cases hh : s.searchToolBarHidden <;>
        simp [handleContextMenuRequest, hv, hh, menuIsEmpty]
    · simp [handleContextMenuRequest, hv, menuIsEmpty]
  · by_cases hm : linkUrl.scheme = "mailto" <;>
      simp [handleContextMenuRequest, hv, hm, menuIsEmpty]

/-- A call other than a `closeUrl` of a valid URL leaves the remembered URL and scroll
position alone. -/
theorem step_keeps_previous (q : QUrlOps) (e : Env) (c : Call) (s : Part)
    (hc : c = Call.closeUrl → q.isValid s.base.url = false) :
    (step q e c s).1.previousUrl = s.previousUrl ∧
    (step q e c s).1.previousScrollPosition = s.previousScrollPosition := by
  cases c with
  | openFile =>
    cases h : e.fileOpen s.base.localFilePath with
    | none => simp [step, openFile_of_failed q e s h]
    | some bytes =>
      simp [step, openFile_of_opened q e s bytes h, restoreScrollPosition,
        prepareViewStateRestoringOnReload_eq]
  | doOpenStream mimeType =>
    cases h : e.inherits (e.mimeTypeForName mimeType) "text/mediawiki" <;>
      simp [step, doOpenStream, h]
  | doWriteStream data => simp [step, doWriteStream]
  | doCloseStream =>
    cases h : e.bufferOpen s.streamedData
    · simp [step, doCloseStream_of_failed e s h]
    · simp [step, doCloseStream_of_opened e s h, restoreScrollPosition,
        prepareViewStateRestoringOnReload_eq]
  | closeUrl => simp [step, closeUrl_of_invalid q e s (hc rfl)]
  | hostSet b => simp [step]
  | scrolled p => simp [step]

/-- A sequence of calls without a `closeUrl` of a valid URL leaves the remembered URL and
scroll position alone. -/
theorem run_keeps_previous (q : QUrlOps) (calls : List (Env × Call)) (s : Part)
    (hcalls : noCloseOfValidUrl q s calls = true) :
    (run q calls s).previousUrl = s.previousUrl ∧
    (run q calls s).previousScrollPosition = s.previousScrollPosition := by
  induction calls generalizing s with
  | nil => exact ⟨rfl, rfl⟩
  | cons ec rest ih =>
    obtain ⟨e, c⟩ := ec
    simp only [noCloseOfValidUrl, Bool.and_eq_true] at hcalls
    have hc : c = Call.closeUrl → q.isValid s.base.url = false := by
      intro hcl
      have h := hcalls.1
      rw [if_pos hcl] at h
      simpa using h
    have h1 := step_keeps_previous q e c s hc
    have h2 := ih (step q e c s).1 hcalls.2
    simp only [run]
    exact ⟨h2.1.trans h1.1, h2.2.trans h1.2⟩

/-- An open of the remembered URL scrolls the view to the remembered position. -/
theorem restore_after_prepare (t : Part) (hurl : t.base.url = t.previousUrl) :
    (restoreScrollPosition (prepareViewStateRestoringOnReload t)).scrollPosition
      = t.previousScrollPosition := by
  simp [restoreScrollPosition, prepareViewStateRestoringOnReload_eq, hurl]

/-- C3: reloading the same URL restores the scroll position.  If `closeUrl` is called
while the part's URL `u` is valid and the view is scrolled to `p`, and afterwards an open
succeeds (`openFile` or `doCloseStream`) while the part's URL is `u` again, then the view
is scrolled to `p` after that open, whatever offsets the host put into the open
arguments.  Between the close and the open the host may set URL, arguments and file
path, the view may be scrolled, streams may be opened and written and the closed part
may be closed again; only a close of another valid URL, which starts a new reload, is
not part of this one. -/
theorem reload_restores_scroll_position (q : QUrlOps) (e e2 : Env) (s : Part)
    (between : List (Env × Call))
    (hvalid : q.isValid s.base.url = true)
    (hbetween : noCloseOfValidUrl q (closeUrl q e s).1 between = true)
    (hsame : (run q between (closeUrl q e s).1).base.url = s.base.url) :
    ((openFile q e2 (run q between (closeUrl q e s).1)).2 = true →
      (openFile q e2 (run q between (closeUrl q e s).1)).1.scrollPosition
        = s.scrollPosition) ∧
    ((doCloseStream e2 (run q between (closeUrl q e s).1)).2 = true →
      (doCloseStream e2 (run q between (closeUrl q e s).1)).1.scrollPosition
        = s.scrollPosition) := by
  have hkeep := run_keeps_previous q between (closeUrl q e s).1 hbetween
  have hprev : (closeUrl q e s).1.previousUrl = s.base.url ∧
      (closeUrl q e s).1.previousScrollPosition = s.scrollPosition := by
    rw [closeUrl_of_valid q e s hvalid]
    exact ⟨rfl, rfl⟩
  generalize run q between (closeUrl q e s).1 = t at hkeep hsame ⊢
  have hurl : t.base.url = t.previousUrl := by
    rw [hsame, hkeep.1, hprev.1]
  have hpos : t.previousScrollPosition = s.scrollPosition := by
    rw [hkeep.2, hprev.2]
  have hrestore := restore_after_prepare t hurl
  constructor
  · intro hok
    cases h : e2.fileOpen t.base.localFilePath with
    | none =>
      rw [openFile_of_failed q e2 t h] at hok
      cases hok
    | some bytes =>
      rw [openFile_of_opened q e2 t bytes h]
      exact hrestore.trans hpos
  · intro hok
    cases h : e2.bufferOpen t.streamedData
    · rw [doCloseStream_of_failed e2 t h] at hok
      cases hok
    · rw [doCloseStream_of_opened e2 t h]
      exact hrestore.trans hpos

/-- The witness of C3: a part showing `file:///wiki/page.mediawiki` scrolled to (3, 7)
is closed (twice), the host asks for the same URL with offsets (100, 200), and the view
is back at (3, 7) after `openFile`. -/
theorem reload_restores_scroll_position_witness :
    (openFile sampleUrlOps sampleEnv
      (run sampleUrlOps hostReopens (closeUrl sampleUrlOps sampleEnv sampleOpenPart).1)).2 = true ∧
    (openFile sampleUrlOps sampleEnv
      (run sampleUrlOps hostReopens (closeUrl sampleUrlOps sampleEnv sampleOpenPart).1)).1.scrollPosition
        = ⟨3, 7⟩ :=
  ⟨by decide,
    (reload_restores_scroll_position sampleUrlOps sampleEnv sampleEnv sampleOpenPart hostReopens
      (by decide) (by decide) (by decide)).1 (by decide)⟩

/-- The witness of C6: three chunks streamed into a fresh part give the text "= A =". -/
theorem stream_delivers_chunks_in_order_witness :
    (doCloseStream sampleEnv
      (writeChunks [[61, 32], [65], [32, 61]]
        (doOpenStream sampleEnv "text/mediawiki" fresh).1)).1.sourceText = "= A =" :=
  ((stream_delivers_chunks_in_order sampleEnv sampleEnv "text/mediawiki" fresh
      [[61, 32], [65], [32, 61]] (by decide)).2.2 (by decide)).1.trans (by decide)

/-- The witness of C8: a right click on a `mailto` link in the standalone mode. -/
theorem contextMenu_in_standalone_mode_witness :
    contextMenuRequested sampleUrlOps Modus.ReadOnlyModus fresh ⟨10, 20⟩
        ⟨"mailto", none, none, none, none, "bob@example.org", none, none⟩ false =
      ContextMenuOutcome.handledByPart
        ⟨[MenuEntry.action (MenuAction.openLink
              ⟨"mailto", none, none, none, none, "bob@example.org", none, none⟩),
            MenuEntry.separator,
            MenuEntry.action (MenuAction.copyEmailAddress
              ⟨"mailto", none, none, none, none, "bob@example.org", none, none⟩)],
          some ⟨10, 20⟩⟩ :=
  (contextMenu_in_standalone_mode sampleUrlOps Modus.ReadOnlyModus fresh ⟨10, 20⟩
    ⟨"mailto", none, none, none, none, "bob@example.org", none, none⟩ false
    (by decide)).1.trans (by decide)

/-- The status-bar message of `showHoveredLink`, written out. -/
theorem showHoveredLink_message (q : QUrlOps) (s : Part) (hovered : QUrl) :
    (showHoveredLink q s hovered).message =
      if q.isValid (resolvedUrl q s hovered) = true then
        q.toDisplayString ((resolvedUrl q s hovered).setUserName none)
      else
        "" := by
  unfold showHoveredLink
  cases h : q.isValid (resolvedUrl q s hovered)
  · simp [h]
  · by_cases hm : ((resolvedUrl q s hovered).setUserName none).scheme = "mailto" <;>
      simp [h, hm]

/-- Resolving two links that differ only in their user-info gives URLs that differ only
in their user-info. -/
theorem resolvedUrl_congr (q : QUrlOps) (hq : UserInfoOblivious q) (s : Part) (a b : QUrl)
    (hab : differOnlyInUserInfo a b) :
    differOnlyInUserInfo (resolvedUrl q s a) (resolvedUrl q s b) := by
  unfold resolvedUrl
  rw [hq.isRelative_congr a b hab]
  cases q.isRelative b
  · exact hq.normalize_congr _ _ hab
  · exact hq.normalize_congr _ _ (hq.resolved_congr s.baseUrl a b hab)

/-- Two URLs that differ only in their user-info have the same scheme, host, port, path,
query and fragment. -/
theorem differOnlyInUserInfo_components (a b : QUrl) (hab : differOnlyInUserInfo a b) :
    a.scheme = b.scheme ∧ a.host = b.host ∧ a.port = b.port ∧ a.path = b.path ∧
    a.query = b.query ∧ a.fragment = b.fragment := by
  have h : a.withoutUserInfo = b.withoutUserInfo := hab
  have hs : a.withoutUserInfo.scheme = b.withoutUserInfo.scheme := by rw [h]
  have hh : a.withoutUserInfo.host = b.withoutUserInfo.host := by rw [h]
  have ho : a.withoutUserInfo.port = b.withoutUserInfo.port := by rw [h]
  have hp : a.withoutUserInfo.path = b.withoutUserInfo.path := by rw [h]
  have hq : a.withoutUserInfo.query = b.withoutUserInfo.query := by rw [h]
  have hf : a.withoutUserInfo.fragment = b.withoutUserInfo.fragment := by rw [h]
  exact ⟨hs, hh, ho, hp, hq, hf⟩

/-- The sample instance of the `QUrl` algorithms meets the library assumptions. -/
theorem sampleUrlOps_oblivious : UserInfoOblivious sampleUrlOps where
  isRelative_congr a b hab := by
    obtain ⟨hs, -⟩ := differOnlyInUserInfo_components a b hab
    simp [sampleUrlOps, hs]
  resolved_congr base a b hab := by
    obtain ⟨hs, hh, ho, hp, hq, hf⟩ := differOnlyInUserInfo_components a b hab
    cases hb : b.host <;>
      simp [sampleUrlOps, differOnlyInUserInfo, QUrl.withoutUserInfo, QUrl.setUserName,
        QUrl.setPassword, hh, hb, hp, ho, hq, hf]
  normalize_congr a b hab := hab
  isValid_congr a b hab := by
    obtain ⟨hs, hh, -, hp, -⟩ := differOnlyInUserInfo_components a b hab
    simp [sampleUrlOps, hh, hs, hp]
  display_removes_password u := rfl

/-- C9: given the library assumptions `UserInfoOblivious`, the hover status message
never reveals user-info: for two hovered link URLs that differ only in their user-info
and any document base URL, `showHoveredLink` reports the same status-bar message; that
message is the display form, with the user-info stripped, of the link resolved against
the document's base URL when the link is relative (and taken as it is otherwise), its
path segments normalised as `resolvedUrl` does; and it is the empty string when that
resolved URL is not valid. -/
theorem hover_message_hides_user_info (q : QUrlOps) (hq : UserInfoOblivious q) (s : Part)
    (a b : QUrl) (hab : differOnlyInUserInfo a b) :
    (showHoveredLink q s a).message = (showHoveredLink q s b).message ∧
    (showHoveredLink q s a).message =
      (if q.isValid (q.normalizePathSegments
          (if q.isRelative a = true then q.resolved s.baseUrl a else a)) = true then
        q.toDisplayString (q.normalizePathSegments
          (if q.isRelative a = true then q.resolved s.baseUrl a else a)).withoutUserInfo
      else
        "") := by
  have hres := resolvedUrl_congr q hq s a b hab
  have hval := hq.isValid_congr _ _ hres
  have hdisp : ∀ u : QUrl,
      q.toDisplayString (u.setUserName none) = q.toDisplayString u.withoutUserInfo :=
    fun u => hq.display_removes_password (u.setUserName none)
  refine ⟨?_, ?_⟩
  · rw [showHoveredLink_message, showHoveredLink_message, hval, hdisp, hdisp]
    unfold differOnlyInUserInfo at hres
    rw [hres]
  · rw [showHoveredLink_message, hdisp]
    rfl

/-- The witness of C9, on a part whose document has the base URL `file:///wiki/`: the
relative link `//alice:secret@example.org/wiki/Main` and the same link for user
`mallory` without a password are resolved against the base URL and produce the same
message, without user-info; the relative link `Other` is shown as
`file:///wiki/Other`. -/
theorem hover_message_hides_user_info_witness :
    differOnlyInUserInfo sampleLink sampleLinkOtherUser ∧
    (showHoveredLink sampleUrlOps sampleOpenPart sampleLink).message
      = (showHoveredLink sampleUrlOps sampleOpenPart sampleLinkOtherUser).message ∧
    (showHoveredLink sampleUrlOps sampleOpenPart sampleLink).message
      = "file://example.org/wiki/Main" ∧
    (showHoveredLink sampleUrlOps sampleOpenPart samplePageLink).message
      = "file:///wiki/Other" :=
  ⟨by decide,
    (hover_message_hides_user_info sampleUrlOps sampleUrlOps_oblivious sampleOpenPart
      sampleLink sampleLinkOtherUser (by decide)).1,
    ((hover_message_hides_user_info sampleUrlOps sampleUrlOps_oblivious sampleOpenPart
      sampleLink sampleLinkOtherUser (by decide)).2).trans (by decide),
    ((hover_message_hides_user_info sampleUrlOps sampleUrlOps_oblivious sampleOpenPart
      samplePageLink samplePageLink (by decide)).2).trans (by decide)⟩

/-- What the code keeps about the search actions along any sequence of calls: all three
are enabled exactly when the last successful `openFile` or `doCloseStream` came after
the last `closeUrl`. -/
theorem searchActions_eq_openedSinceClose (q : QUrlOps) (calls : List (Env × Call))
    (s : Part) (opened : Bool)
    (h : s.searchEnabled = opened ∧ s.searchNextEnabled = opened ∧
      s.searchPreviousEnabled = opened) :
    (run q calls s).searchEnabled = openedSinceClose q s opened calls ∧
    (run q calls s).searchNextEnabled = openedSinceClose q s opened calls ∧
    (run q calls s).searchPreviousEnabled = openedSinceClose q s opened calls := by
  induction calls generalizing s opened with
  | nil => exact h
  | cons ec rest ih =>
    obtain ⟨e, c⟩ := ec
    simp only [run, openedSinceClose]
    apply ih
    obtain ⟨h1, h2, h3⟩ := h
    cases c with
    | openFile =>
      cases hf : e.fileOpen s.base.localFilePath with
      | none => simp [step, openFile_of_failed q e s hf, h1, h2, h3]
      | some bytes => simp [step, openFile_of_opened q e s bytes hf]
    | doOpenStream mimeType =>
      cases hm : e.inherits (e.mimeTypeForName mimeType) "text/mediawiki" <;>
        simp [step, doOpenStream, hm, h1, h2, h3]
    | doWriteStream data => simp [step, doWriteStream, h1, h2, h3]
    | doCloseStream =>
      cases hb : e.bufferOpen s.streamedData
      · simp [step, doCloseStream_of_failed e s hb, h1, h2, h3]
      · simp [step, doCloseStream_of_opened e s hb]
    | closeUrl =>
      cases hv : q.isValid s.base.url
      · simp [step, closeUrl_of_invalid q e s hv]
      · simp [step, closeUrl_of_valid q e s hv]
    | hostSet b => simp [step, h1, h2, h3]
    | scrolled p => simp [step, h1, h2, h3]

/-- Along a sequence of calls in the host's order, from a part whose three search actions
all have the state `b`, the search actions end up enabled exactly when a document is
loaded in the specification's sense. -/
theorem searchActions_eq_documentLoaded (q : QUrlOps) (calls : List (Env × Call))
    (s : Part) (b : Bool)
    (h : s.searchEnabled = b ∧ s.searchNextEnabled = b ∧ s.searchPreviousEnabled = b)
    (horder : streamOpensOnlyWhenClosed q s b calls = true) :
    (run q calls s).searchEnabled = documentLoaded q s b calls ∧
    (run q calls s).searchNextEnabled = documentLoaded q s b calls ∧
    (run q calls s).searchPreviousEnabled = documentLoaded q s b calls := by
  induction calls generalizing s b with
  | nil => exact h
  | cons ec rest ih =>
    obtain ⟨e, c⟩ := ec
    obtain ⟨h1, h2, h3⟩ := h
    simp only [streamOpensOnlyWhenClosed, Bool.and_eq_true] at horder
    obtain ⟨hguard, hrest⟩ := horder
    simp only [run, documentLoaded]
    cases c with
    | openFile =>
      apply ih _ _ _ hrest
      cases hf : e.fileOpen s.base.localFilePath with
      | none => simp [step, openFile_of_failed q e s hf, h1, h2, h3]
      | some bytes => simp [step, openFile_of_opened q e s bytes hf]
    | doOpenStream mimeType =>
      have hb : b = false := by simpa using hguard
      subst hb
      have hflag : (if (step q e (Call.doOpenStream mimeType) s).2 = true then false
          else false) = false := by
        split <;> rfl
      simp only [hflag]
      apply ih _ _ _ hrest
      cases hm : e.inherits (e.mimeTypeForName mimeType) "text/mediawiki" <;>
        simp [step, doOpenStream, hm, h1, h2, h3]
    | doWriteStream data =>
      apply ih _ _ _ hrest
      simp [step, doWriteStream, h1, h2, h3]
    | doCloseStream =>
      apply ih _ _ _ hrest
      cases hb : e.bufferOpen s.streamedData
      · simp [step, doCloseStream_of_failed e s hb, h1, h2, h3]
      · simp [step, doCloseStream_of_opened e s hb]
    | closeUrl =>
      apply ih _ _ _ hrest
      cases hv : q.isValid s.base.url
      · simp [step, closeUrl_of_invalid q e s hv]
      · simp [step, closeUrl_of_valid q e s hv]
    | hostSet b1 =>
      apply ih _ _ _ hrest
      simp [step, h1, h2, h3]
    | scrolled p =>
      apply ih _ _ _ hrest
      simp [step, h1, h2, h3]

/-- C1 as stated fails: on a fresh part a document is streamed in and finalized (every
call returns true, the search actions get enabled) and then `doOpenStream` is called
again, without a `closeUrl` before it, and accepted.  It has emptied the document text,
so no document is loaded, yet find, find-next and find-previous are still enabled. -/
theorem search_enabled_without_document_after_doOpenStream :
    (run sampleUrlOps streamTwice fresh).sourceText = "" ∧
    documentLoaded sampleUrlOps fresh false streamTwice = false ∧
    (run sampleUrlOps streamTwice fresh).searchEnabled = true ∧
    (run sampleUrlOps streamTwice fresh).searchNextEnabled = true ∧
    (run sampleUrlOps streamTwice fresh).searchPreviousEnabled = true := by
  decide

/-- C1, amended: in every state reachable from a freshly constructed part by a sequence
of `openFile`, `doOpenStream`, `doWriteStream`, `doCloseStream` and `closeUrl` calls,
successful or failing, in which every `doOpenStream` is called with no successful open
since the last `closeUrl` (the order in which the host issues the hook), the find,
find-next and find-previous actions are enabled only while a document is loaded: only
if the document text was set by a successful `openFile` or `doCloseStream` and has not
been cleared since by `closeUrl` or by an accepted `doOpenStream`. -/
theorem searchActions_only_while_loaded_in_host_order (q : QUrlOps)
    (calls : List (Env × Call))
    (horder : streamOpensOnlyWhenClosed q fresh false calls = true) :
    ((run q calls fresh).searchEnabled = true → documentLoaded q fresh false calls = true) ∧
    ((run q calls fresh).searchNextEnabled = true →
      documentLoaded q fresh false calls = true) ∧
    ((run q calls fresh).searchPreviousEnabled = true →
      documentLoaded q fresh false calls = true) := by
  have h := searchActions_eq_documentLoaded q calls fresh false ⟨rfl, rfl, rfl⟩ horder
  exact ⟨fun he => h.1.symm.trans he, fun he => h.2.1.symm.trans he,
    fun he => h.2.2.symm.trans he⟩

/-- The witness of the amended C1: a document is streamed in, the part is closed, and a
second document is streamed in; the calls are in the host's order, the search actions
are enabled at the end, and a document is loaded. -/
theorem searchActions_only_while_loaded_in_host_order_witness :
    streamOpensOnlyWhenClosed sampleUrlOps fresh false streamCloseStream = true ∧
    (run sampleUrlOps streamCloseStream fresh).searchEnabled = true ∧
    documentLoaded sampleUrlOps fresh false streamCloseStream = true :=
  ⟨by decide, by decide,
    (searchActions_only_while_loaded_in_host_order sampleUrlOps streamCloseStream
      (by decide)).1 (by decide)⟩

/-- C4 at concrete inputs: with an unreadable file `openFile` fails and leaves the part
as it was; with the readable sample file it succeeds, shows the text "= A =" with base
URL `file:///wiki/` and enables the search actions. -/
theorem openFile_result_witness :
    openFile sampleUrlOps failingEnv sampleOpenPart = (sampleOpenPart, false) ∧
    (openFile sampleUrlOps sampleEnv
        { fresh with base := ⟨sampleFileUrl, OpenUrlArguments.default, "/wiki/page.mediawiki"⟩ }).2
      = true ∧
    (openFile sampleUrlOps sampleEnv
        { fresh with base := ⟨sampleFileUrl, OpenUrlArguments.default, "/wiki/page.mediawiki"⟩ }).1.sourceText
      = "= A =" ∧
    (openFile sampleUrlOps sampleEnv
        { fresh with base := ⟨sampleFileUrl, OpenUrlArguments.default, "/wiki/page.mediawiki"⟩ }).1.baseUrl
      = ⟨"file", none, none, some "", none, "/wiki/", none, none⟩ :=
  ⟨Prod.ext ((openFile_result sampleUrlOps failingEnv sampleOpenPart).2.1 (by decide))
      (by decide),
    by decide, by decide, by decide⟩

/-- C7 at a concrete input: a stream buffer that cannot be opened is discarded and the
rest of the part stays as it was. -/
theorem doCloseStream_clears_buffer_witness :
    (doCloseStream failingEnv { sampleOpenPart with streamedData := [61, 61] }).1
      = sampleOpenPart :=
  ((doCloseStream_clears_buffer failingEnv
      { sampleOpenPart with streamedData := [61, 61] }).2 (by decide)).1.trans (by decide)

/-- C10 at a concrete input: closing the sample part remembers its URL and the scroll
position (3, 7), and closing it a second time changes nothing. -/
theorem closeUrl_remembers_navigation_witness :
    (closeUrl sampleUrlOps sampleEnv sampleOpenPart).1.previousUrl = sampleFileUrl ∧
    (closeUrl sampleUrlOps sampleEnv sampleOpenPart).1.previousScrollPosition = ⟨3, 7⟩ ∧
    (closeUrl sampleUrlOps sampleEnv (closeUrl sampleUrlOps sampleEnv sampleOpenPart).1).1
      = (closeUrl sampleUrlOps sampleEnv sampleOpenPart).1 :=
  ⟨((closeUrl_remembers_navigation sampleUrlOps sampleEnv sampleEnv sampleOpenPart).1
      (by decide)).1,
    ((closeUrl_remembers_navigation sampleUrlOps sampleEnv sampleEnv sampleOpenPart).1
      (by decide)).2,
    ((closeUrl_remembers_navigation sampleUrlOps sampleEnv sampleEnv sampleOpenPart).2.2
      (by decide)).2 (by decide)⟩

end MediaWikiPart
